import Mathlib

/-!
Verification of the document_classifier_poc repository.

Shallow embedding of the core text-processing and classification pipeline:
* `app/utils/pdf_processor.py`  — `chunk_text`, `is_large_document`
* `app/utils/openrouter_client.py` — `classify_document` response handling,
  `summarize_chunks` response handling
* `app/services/classifier.py` — `DocumentClassifier.classify_document`,
  `_classify_large_document`, `ROUTING_RULES`

Text is modelled as `List Char` (Python `str`), JSON values as an inductive
`JVal`, JSON numbers as rationals, and the external collaborators (file
extraction, the OpenRouter HTTP calls, `json.loads`) as components of an
environment record `Env` that each pipeline function consumes.  Python
exceptions are modelled with `Except String`; a raised exception is an
`Except.error` carrying the exception message.
-/

set_option autoImplicit false

/-- Python `str.strip()` whitespace predicate: space, tab, newline, carriage
return, vertical tab, form feed (the ASCII whitespace characters). -/
def isPySpace (c : Char) : Bool :=
  c == ' ' || c == '\t' || c == '\n' || c == '\r' || c == Char.ofNat 11 || c == Char.ofNat 12

/-- Python `text.strip()`: remove leading and trailing whitespace. -/
def pyStrip (l : List Char) : List Char :=
  ((l.dropWhile isPySpace).reverse.dropWhile isPySpace).reverse

/-- Python slicing `text[a:b]` for natural `a`, `b` (clamped to the text,
empty when `b ≤ a`). -/
def sliceL (l : List Char) (a b : Nat) : List Char :=
  (l.drop a).take (b - a)

/-- Does `sub` occur in `l` starting exactly at index `i` (fully contained)? -/
def matchSub (l sub : List Char) (i : Nat) : Bool :=
  (l.drop i).take sub.length == sub

/-- Python `str.rfind(sub)` for non-empty `sub`: the highest index at which
`sub` occurs, or `-1` when it does not occur. -/
def rfind (l sub : List Char) : Int :=
  ((((List.range (l.length + 1)).filter (fun i => matchSub l sub i)).getLast?).map
    Int.ofNat).getD (-1)

/-- Python `str.find(sub, i0)` for non-empty `sub`: the lowest index `≥ i0`
at which `sub` occurs, or `-1`. -/
def findFrom (l sub : List Char) (i0 : Nat) : Int :=
  ((((List.range (l.length + 1)).filter (fun i => decide (i0 ≤ i) && matchSub l sub i)).head?).map
    Int.ofNat).getD (-1)

/-- Python `sub in l` (substring containment). -/
def containsSub (l sub : List Char) : Bool :=
  (List.range (l.length + 1)).any (fun i => matchSub l sub i)

/-- `pdf_processor.py` lines 126-133: `best_break`, the position of the last
sentence ending ('. ', '! ', '? ', '\n\n') within `text[max(0, e-200):e]`,
computed as the running maximum of the four `rfind`s starting from -1. -/
def bestBreak (text : List Char) (e : Nat) : Int :=
  max (max (rfind (sliceL text (e - 200) e) ('.' :: ' ' :: []))
        (rfind (sliceL text (e - 200) e) ('!' :: ' ' :: [])))
    (max (rfind (sliceL text (e - 200) e) ('?' :: ' ' :: []))
      (rfind (sliceL text (e - 200) e) ('\n' :: '\n' :: [])))

/-- `pdf_processor.py` line 141: `space_pos`, the last space within
`text[max(0, e-50):e]`. -/
def spacePos (text : List Char) (e : Nat) : Int :=
  rfind (sliceL text (e - 50) e) (' ' :: [])

/-- `pdf_processor.py` lines 124-143: snap a tentative chunk end `e` that
falls strictly inside the text back to a sentence ending in the preceding
200 characters, else to a space in the preceding 50 characters. -/
def snapEnd (text : List Char) (e : Nat) : Nat :=
  if e < text.length then
    if bestBreak text e > -1 then
      (e - 200) + (bestBreak text e).toNat + 2
    else if spacePos text e > -1 then
      (e - 50) + (spacePos text e).toNat
    else e
  else e

/-- `pdf_processor.py` lines 121-143: the boundary-snapped end position of
the chunk starting at `start`: `end = min(start + chunk_size, len(text))`,
then snapped when it falls strictly inside the text. -/
def chunkEnd (cs : Nat) (text : List Char) (start : Nat) : Nat :=
  snapEnd text (min (start + cs) text.length)

/-- `pdf_processor.py` lines 119-150: the chunking while-loop, with explicit
fuel.  One unit of fuel is spent per iteration; since `start` advances by at
least one per iteration (`start = max(start + 1, end - chunk_overlap)`), fuel
`text.length` always suffices (theorem `chunk_loop_terminates`). -/
def chunkLoopFuel (cs ov : Nat) (text : List Char) : Nat → Nat → Option (List (List Char))
  | 0, start =>
    if start < text.length then none else some []
  | fuel' + 1, start =>
    if start < text.length then
      (chunkLoopFuel cs ov text fuel' (max (start + 1) (chunkEnd cs text start - ov))).map
        (fun rest =>
          if (pyStrip (sliceL text start (chunkEnd cs text start))).isEmpty then rest
          else pyStrip (sliceL text start (chunkEnd cs text start)) :: rest)
    else
      some []

/-- `pdf_processor.py` `PDFProcessor.chunk_text` with `chunk_size = cs` and
`chunk_overlap = ov`.  The `getD []` default is unreachable: the loop always
returns within `text.length` iterations (theorem `chunk_loop_terminates`). -/
def chunk_text (cs ov : Nat) (text : List Char) : List (List Char) :=
  if text.length ≤ cs then
    [text]
  else
    (chunkLoopFuel cs ov text text.length 0).getD []

/-- `pdf_processor.py` `PDFProcessor.is_large_document`:
`len(text) > threshold`, default threshold 3000. -/
def is_large_document (text : List Char) (threshold : Nat := 3000) : Bool :=
  decide (threshold < text.length)

/-- JSON values as produced by Python `json.loads`.  Object keys are strings;
numbers are modelled as rationals (ints and the finite floats that occur
here). -/
inductive JVal where
  | jstr (s : String)
  | jnum (q : ℚ)
  | jbool (b : Bool)
  | jnull
  | jarr (xs : List JVal)
  | jobj (fields : List (String × JVal))

/-- The three fields of a classification result that the pipeline reads
(`result["category"]`, `result["confidence"]`, `result["summary"]`). -/
structure CResult where
  category : String
  confidence : ℚ
  summary : JVal

/-- One call to the external model, as observed at the OpenRouter boundary. -/
inductive Call where
  | classifyCall (text : List Char)
  | summarizeCall (chunks : List (List Char))

/-- Outcomes of the external collaborators for one request: the result of
`extract_text_from_upload`, of `get_openrouter_client()`, of the two
chat-completion calls (an `Except.error` is any exception raised while
calling the API or reading its content), and of `json.loads`. -/
structure Env where
  extractResult : Except String (List Char)
  clientInit : Except String Unit
  classifyAPI : List Char → Except String (List Char)
  summarizeAPI : List (List Char) → Except String (Option (List Char))
  loads : List Char → Option JVal

/-- `classifier.py` lines 11-17: the static routing table. -/
def ROUTING_RULES : List (String × String) :=
  [("Invoice", "Accounts Payable"),
   ("Purchase Order", "Procurement"),
   ("Contract", "Legal"),
   ("Expense Report", "Finance"),
   ("Other", "Back Office (Review)")]

/-- The configured category set: the keys of the routing table. -/
def ruleKeys (rules : List (String × String)) : List String :=
  rules.map Prod.fst

/-- Python `v == key` for a JSON value and a string key (cross-type equality
is `False`). -/
def jvalEqStr (v : JVal) (s : String) : Bool :=
  match v with
  | .jstr t => t == s
  | _ => false

/-- The literal `'"category"'` checked by `'"category"' in result_text`. -/
def catLit : List Char := ('"' :: 'c' :: 'a' :: 't' :: 'e' :: 'g' :: 'o' :: 'r' :: 'y' :: '"' :: [])

/-- The literal `"category":` that starts the recovery regex. -/
def catColon : List Char := catLit ++ (':' :: [])

/-- The regex whitespace class `\s` over the ASCII range. -/
def isRegexSpace (c : Char) : Bool :=
  c == ' ' || c == '\t' || c == '\n' || c == '\r' || c == Char.ofNat 11 || c == Char.ofNat 12

/-- Match of the recovery regex `"category":\s*"([^"]+)"` anchored at index
`i`, returning the capture group. -/
def matchCatAt (l : List Char) (i : Nat) : Option (List Char) :=
  if matchSub l catColon i then
    let rest := (l.drop (i + catColon.length)).dropWhile isRegexSpace
    match rest with
    | '"' :: rest2 =>
      let cap := rest2.takeWhile (fun c => c != '"')
      if cap.isEmpty then none
      else if (rest2.drop cap.length).isEmpty then none
      else some cap
    | _ => none
  else none

/-- `re.search(r'"category":\s*"([^"]+)"', result_text)`: the capture group of
the leftmost match, if any. -/
def regexCategory (l : List Char) : Option (List Char) :=
  ((List.range (l.length + 1)).filterMap (fun i => matchCatAt l i)).head?

/-- `openrouter_client.py` lines 130-153: the `json.JSONDecodeError` recovery
branch.  Category defaults to "Other"; when `'"category"'` occurs in the raw
response a regex extraction is attempted and its capture is accepted only if
it is a configured category. -/
def regexFallback (result_text : List Char) (rules : List (String × String)) : CResult :=
  let category :=
    if containsSub result_text catLit then
      match regexCategory result_text with
      | some cap =>
        if (ruleKeys rules).contains (String.mk cap) then String.mk cap else "Other"
      | none => "Other"
    else "Other"
  { category := category,
    confidence := 1 / 2,
    summary := .jstr "Classification failed - manual review required" }

/-- `openrouter_client.py` lines 94-108: strip markdown code-fence markers
from the cleaned response text before parsing. -/
def stripFences (cleaned : List Char) : List Char :=
  let fenceJson := ('`' :: '`' :: '`' :: 'j' :: 's' :: 'o' :: 'n' :: [])
  let fence := ('`' :: '`' :: '`' :: [])
  if containsSub cleaned fenceJson then
    let startIdx := (findFrom cleaned fenceJson 0).toNat + 7
    let endIdx := findFrom cleaned fence startIdx
    if endIdx > (startIdx : Int) then pyStrip (sliceL cleaned startIdx endIdx.toNat) else cleaned
  else if containsSub cleaned fence then
    let startIdx := (findFrom cleaned fence 0).toNat + 3
    let endIdx := rfind cleaned fence
    if endIdx > (startIdx : Int) then pyStrip (sliceL cleaned startIdx endIdx.toNat) else cleaned
  else cleaned

/-- `openrouter_client.py` lines 117-120: the category membership check
`result["category"] not in routing_rules`, coercing an out-of-set string to
"Other".  A non-string hashable value (number, bool, null) is simply not a
key, hence coerced to "Other"; an unhashable value (list, dict) makes the
`in` test raise `TypeError`, modelled as `Except.error`. -/
def pyCategoryCoerce (catv : JVal) (rules : List (String × String)) : Except String String :=
  match catv with
  | .jarr _ => .error "unhashable type: list"
  | .jobj _ => .error "unhashable type: dict"
  | .jstr s => .ok (if (ruleKeys rules).contains s then s else "Other")
  | _ => .ok "Other"

/-- `openrouter_client.py` lines 123-125: `isinstance(confidence, (int, float))
and 0 <= confidence <= 1`, else coerce to 0.5.  Python `bool` is a subclass
of `int` with values 0/1, so a boolean passes the check. -/
def pyConfidenceCoerce (confv : JVal) : ℚ :=
  match confv with
  | .jnum q => if 0 ≤ q ∧ q ≤ 1 then q else 1 / 2
  | .jbool b => if b then 1 else 0
  | _ => 1 / 2

/-- `openrouter_client.py` lines 112-128 applied to a successfully parsed
JSON value: field validation, category coercion (`pyCategoryCoerce`, which
runs first and whose `TypeError` on unhashable values aborts), confidence
coercion.  An `Except.error` is an exception that escapes the inner `try`
(which is only guarded by `except json.JSONDecodeError`): the explicit
`ValueError("Missing required fields in AI response")` and the `TypeError`s
Python raises when `key in result` is applied to a non-container, when a
string subscripts a list or a str, or when an unhashable value is tested
for dict membership. -/
def parseSuccess (v : JVal) (rules : List (String × String)) : Except String CResult :=
  match v with
  | .jobj fields =>
    match fields.lookup "category", fields.lookup "confidence", fields.lookup "summary" with
    | some catv, some confv, some sumv =>
      match pyCategoryCoerce catv rules with
      | .error e => .error e
      | .ok category =>
        .ok { category := category, confidence := pyConfidenceCoerce confv, summary := sumv }
    | _, _, _ => .error "Missing required fields in AI response"
  | .jarr xs =>
    if xs.any (fun v => jvalEqStr v "category") && xs.any (fun v => jvalEqStr v "confidence")
        && xs.any (fun v => jvalEqStr v "summary") then
      .error "list indices must be integers or slices, not str"
    else
      .error "Missing required fields in AI response"
  | .jstr s =>
    if containsSub s.data ('c' :: 'a' :: 't' :: 'e' :: 'g' :: 'o' :: 'r' :: 'y' :: [])
        && containsSub s.data ('c' :: 'o' :: 'n' :: 'f' :: 'i' :: 'd' :: 'e' :: 'n' :: 'c' :: 'e' :: [])
        && containsSub s.data ('s' :: 'u' :: 'm' :: 'm' :: 'a' :: 'r' :: 'y' :: []) then
      .error "string indices must be integers"
    else
      .error "Missing required fields in AI response"
  | _ => .error "argument of type is not iterable"

/-- `openrouter_client.py` lines 89-153: clean the response text, strip
fences, `json.loads`, then either the validated result or the
`JSONDecodeError` recovery. -/
def client_parse (result_text : List Char) (loads : List Char → Option JVal)
    (rules : List (String × String)) : Except String CResult :=
  let cleaned := stripFences (pyStrip result_text)
  match loads cleaned with
  | some v => parseSuccess v rules
  | none => .ok (regexFallback result_text rules)

/-- `openrouter_client.py` `OpenRouterClient.classify_document`: the whole
body is wrapped in `try ... except Exception`, whose handler returns the
`{"category": "Other", "confidence": 0.0, ...}` fallback, so this function
never raises. -/
def client_classify_document (env : Env) (text : List Char)
    (rules : List (String × String)) : CResult :=
  match env.classifyAPI text with
  | .error e =>
    { category := "Other", confidence := 0, summary := .jstr ("Classification error: " ++ e) }
  | .ok content =>
    match client_parse (pyStrip content) env.loads rules with
    | .ok r => r
    | .error e =>
      { category := "Other", confidence := 0, summary := .jstr ("Classification error: " ++ e) }

/-- `openrouter_client.py` `OpenRouterClient.summarize_chunks`: returns the
stripped response content, a diagnostic string when the content is `None` or
strips to empty, and the `except Exception` fallback string when the call
raises.  Never raises. -/
def client_summarize (env : Env) (chunks : List (List Char)) : List Char :=
  match env.summarizeAPI chunks with
  | .error e => ("Summarization failed: " ++ e).data
  | .ok none => "Unable to summarize document - API returned empty response".data
  | .ok (some content) =>
    let summary := pyStrip content
    if summary.isEmpty then
      "Unable to summarize document - empty response from AI model".data
    else summary

/-- `classifier.py` lines 126-132: remove duplicate chunks while preserving
first-occurrence order (the `seen` set loop). -/
def uniqueChunks (l : List (List Char)) : List (List Char) :=
  l.foldl (fun acc c => if acc.contains c then acc else acc ++ [c]) []

/-- `classifier.py` `DocumentClassifier._classify_large_document`.  The body
is wrapped in `try ... except Exception` returning the
`{"category": "Other", "confidence": 0.0, ...}` default; inside it only
`get_openrouter_client()` can raise, so that outcome is matched where the
call occurs.  Alongside the result, the list of external model calls made is
returned. -/
def classify_large_document (env : Env) (text : List Char) : CResult × List Call :=
  let chunks := chunk_text 2000 200 text
  if 10 < chunks.length then
    let representative_chunks :=
      chunks.take 3
        ++ (chunks.drop (max 3 (chunks.length / 2 - 1))).take
            (min (chunks.length - 3) (chunks.length / 2 + 1) - max 3 (chunks.length / 2 - 1))
        ++ chunks.drop (chunks.length - 3)
    let unique_chunks := uniqueChunks representative_chunks
    match env.clientInit with
    | .error e =>
      ({ category := "Other", confidence := 0,
         summary := .jstr ("Large document classification failed: " ++ e) }, [])
    | .ok _ =>
      let summary_text := client_summarize env unique_chunks
      (client_classify_document env summary_text ROUTING_RULES,
       [Call.summarizeCall unique_chunks, Call.classifyCall summary_text])
  else
    let analysis_chunks := chunks.take 5
    let combined_text := List.intercalate ('\n' :: '\n' :: []) analysis_chunks
    match env.clientInit with
    | .error e =>
      ({ category := "Other", confidence := 0,
         summary := .jstr ("Large document classification failed: " ++ e) }, [])
    | .ok _ =>
      if 8000 < combined_text.length then
        let summary_text := client_summarize env analysis_chunks
        (client_classify_document env summary_text ROUTING_RULES,
         [Call.summarizeCall analysis_chunks, Call.classifyCall summary_text])
      else
        (client_classify_document env combined_text ROUTING_RULES,
         [Call.classifyCall combined_text])

/-- `classifier.py` lines 55-64: size check, then either the large-document
strategy or a single classification call over the full text. -/
def classification_step (env : Env) (text : List Char) : Except String (CResult × List Call) :=
  if is_large_document text then
    .ok (classify_large_document env text)
  else
    match env.clientInit with
    | .error e => .error e
    | .ok _ => .ok (client_classify_document env text ROUTING_RULES, [Call.classifyCall text])

/-- The final response dictionary built by `DocumentClassifier.classify_document`. -/
structure FinalResult where
  filename : String
  label : String
  confidence : ℚ
  routing : String
  summary : JVal

/-- The `try` body of `DocumentClassifier.classify_document` (lines 40-78):
extraction, the empty-text early return, the classification step, and the
final result build including the `self.routing_rules[...]` lookups (a missing
key would raise `KeyError`). -/
def classifier_body (env : Env) (filename : String) :
    Except String FinalResult × List Call :=
  match env.extractResult with
  | .error e => (.error e, [])
  | .ok text =>
    if (pyStrip text).isEmpty then
      match ROUTING_RULES.lookup "Other" with
      | some r =>
        (.ok { filename := filename, label := "Other", confidence := 0, routing := r,
               summary := .jstr "No readable text found in document" }, [])
      | none => (.error "KeyError: Other", [])
    else
      match classification_step env text with
      | .error e => (.error e, [])
      | .ok (cres, calls) =>
        match ROUTING_RULES.lookup cres.category with
        | some routing =>
          (.ok { filename := filename, label := cres.category, confidence := cres.confidence,
                 routing := routing, summary := cres.summary }, calls)
        | none => (.error ("KeyError: " ++ cres.category), calls)

/-- `classifier.py` `DocumentClassifier.classify_document`: the `try` body
plus the `except Exception` handler (lines 80-89) that converts any raised
exception into the default "Other" result. -/
def classifier_classify_document (env : Env) (filename : String) :
    Except String FinalResult × List Call :=
  match classifier_body env filename with
  | (.ok r, calls) => (.ok r, calls)
  | (.error e, calls) =>
    match ROUTING_RULES.lookup "Other" with
    | some r =>
      (.ok { filename := filename, label := "Other", confidence := 0, routing := r,
             summary := .jstr ("Classification failed: " ++ e) }, calls)
    | none => (.error "KeyError: Other", calls)

/-- A concrete collaborator environment used to evaluate theorems on
concrete inputs: both API calls fail with fixed messages and parsing always
fails. -/
def envBase : Env :=
  { extractResult := .ok ('h' :: 'i' :: []),
    clientInit := .ok (),
    classifyAPI := fun _ => .error "boom",
    summarizeAPI := fun _ => .error "sboom",
    loads := fun _ => none }

/-- An environment whose text extraction raises (an unsupported upload
type). -/
def envExtractFail : Env :=
  { envBase with
    extractResult := .error "Failed to process uploaded file: Unsupported file type: image/png" }

/-- An environment whose text extraction raises with a short message. -/
def envExtractFail2 : Env :=
  { envBase with extractResult := .error "read error" }

/-- An environment whose extracted text is whitespace-only. -/
def envBlank : Env :=
  { envBase with extractResult := .ok (' ' :: ' ' :: '\t' :: ' ' :: []) }

/-- An environment whose classification call returns a malformed (non-JSON)
response containing a recoverable category value. -/
def envMalformed : Env :=
  { envBase with
    classifyAPI := fun _ => .ok "note \"category\": \"Invoice\" end".data }

theorem pyStrip_length_le (l : List Char) : (pyStrip l).length ≤ l.length := by
  unfold pyStrip
  calc ((l.dropWhile isPySpace).reverse.dropWhile isPySpace).reverse.length
      = ((l.dropWhile isPySpace).reverse.dropWhile isPySpace).length := by
        rw [List.length_reverse]
    _ ≤ (l.dropWhile isPySpace).reverse.length := (List.dropWhile_sublist _).length_le
    _ = (l.dropWhile isPySpace).length := by rw [List.length_reverse]
    _ ≤ l.length := (List.dropWhile_sublist _).length_le

theorem sliceL_length_le (l : List Char) (a b : Nat) : (sliceL l a b).length ≤ b - a := by
  simp only [sliceL, List.length_take, List.length_drop]
  omega

theorem rfind_bound (l sub : List Char) (h : rfind l sub > -1) :
    (rfind l sub).toNat + sub.length ≤ l.length := by
  unfold rfind at h ⊢
  cases hm : ((List.range (l.length + 1)).filter (fun i => matchSub l sub i)).getLast? with
  | none => simp [hm] at h
  | some j =>
    have hmem : j ∈ (List.range (l.length + 1)).filter (fun i => matchSub l sub i) := by
      rcases List.getLast?_eq_some_iff.mp hm with ⟨ys, hys⟩
      rw [hys]; simp
    have h1 : j < l.length + 1 := List.mem_range.mp (List.mem_of_mem_filter hmem)
    have h2 : (l.drop j).take sub.length = sub := by
      have := List.of_mem_filter hmem
      simpa [matchSub] using this
    have h3 : ((l.drop j).take sub.length).length = sub.length := by rw [h2]
    simp only [List.length_take, List.length_drop] at h3
    have h4 : (Int.ofNat j).toNat = j := rfl
    simp only [hm, Option.map_some', Option.getD_some, h4]
    omega

theorem snapEnd_le (text : List Char) (e : Nat) : snapEnd text e ≤ e := by
  unfold snapEnd
  split
  case isTrue hlt =>
    split
    case isTrue hbb =>
      have hb : (bestBreak text e).toNat + 2 ≤ (sliceL text (e - 200) e).length := by
        unfold bestBreak at hbb ⊢
        rcases max_choice
            (max (rfind (sliceL text (e - 200) e) ('.' :: ' ' :: []))
              (rfind (sliceL text (e - 200) e) ('!' :: ' ' :: [])))
            (max (rfind (sliceL text (e - 200) e) ('?' :: ' ' :: []))
              (rfind (sliceL text (e - 200) e) ('\n' :: '\n' :: []))) with h1 | h1 <;>
          rw [h1] at hbb ⊢
        · rcases max_choice (rfind (sliceL text (e - 200) e) ('.' :: ' ' :: []))
              (rfind (sliceL text (e - 200) e) ('!' :: ' ' :: [])) with h2 | h2 <;>
            rw [h2] at hbb ⊢
          · simpa using rfind_bound (sliceL text (e - 200) e) ('.' :: ' ' :: []) hbb
          · simpa using rfind_bound (sliceL text (e - 200) e) ('!' :: ' ' :: []) hbb
        · rcases max_choice (rfind (sliceL text (e - 200) e) ('?' :: ' ' :: []))
              (rfind (sliceL text (e - 200) e) ('\n' :: '\n' :: [])) with h2 | h2 <;>
            rw [h2] at hbb ⊢
          · simpa using rfind_bound (sliceL text (e - 200) e) ('?' :: ' ' :: []) hbb
          · simpa using rfind_bound (sliceL text (e - 200) e) ('\n' :: '\n' :: []) hbb
      have hs := sliceL_length_le text (e - 200) e
      omega
    case isFalse hbb =>
      split
      case isTrue hsp =>
        have hb : (spacePos text e).toNat + 1 ≤ (sliceL text (e - 50) e).length := by
          unfold spacePos at hsp ⊢
          simpa using rfind_bound (sliceL text (e - 50) e) (' ' :: []) hsp
        have hs := sliceL_length_le text (e - 50) e
        omega
      case isFalse => exact Nat.le_refl e
  case isFalse => exact Nat.le_refl e

theorem chunkEnd_le (cs : Nat) (text : List Char) (start : Nat) :
    chunkEnd cs text start ≤ start + cs := by
  unfold chunkEnd
  calc snapEnd text (min (start + cs) text.length) ≤ min (start + cs) text.length :=
        snapEnd_le text _
    _ ≤ start + cs := Nat.min_le_left _ _

theorem chunkLoopFuel_length_le (cs ov : Nat) (text : List Char) :
    ∀ fuel start res, chunkLoopFuel cs ov text fuel start = some res →
      ∀ c ∈ res, c.length ≤ cs := by
  intro fuel
  induction fuel with
  | zero =>
    intro start res h c hc
    unfold chunkLoopFuel at h
    split at h
    · exact absurd h (by simp)
    · cases h; simp at hc
  | succ f ih =>
    intro start res h c hc
    unfold chunkLoopFuel at h
    split at h
    case isTrue hlt =>
      cases hrec : chunkLoopFuel cs ov text f (max (start + 1) (chunkEnd cs text start - ov)) with
      | none => rw [hrec] at h; exact absurd h (by simp)
      | some rest =>
        rw [hrec] at h
        simp only [Option.map_some', Option.some.injEq] at h
        subst h
        by_cases hemp : (pyStrip (sliceL text start (chunkEnd cs text start))).isEmpty
        · rw [if_pos hemp] at hc
          exact ih _ rest hrec c hc
        · rw [if_neg hemp] at hc
          rcases List.mem_cons.mp hc with hceq | hcrest
          · subst hceq
            have h1 := pyStrip_length_le (sliceL text start (chunkEnd cs text start))
            have h2 := sliceL_length_le text start (chunkEnd cs text start)
            have h3 := chunkEnd_le cs text start
            omega
          · exact ih _ rest hrec c hcrest
    case isFalse =>
      cases h; simp at hc

/-- C6: `is_large_document(text)` is true iff the character length of the
text strictly exceeds the threshold; a text whose length equals the
threshold is not large. -/
theorem is_large_document_iff :
    (∀ (text : List Char) (threshold : Nat),
        is_large_document text threshold = true ↔ threshold < text.length) ∧
    (∀ text : List Char, is_large_document text text.length = false) := by
  constructor
  · intro text th
    simp [is_large_document]
  · intro text
    simp [is_large_document]

/-- C3 counterexample: for the two-character text " a" (length ≤ chunk_size
2000) the chunking operation returns the text unchanged, not trimmed of its
leading whitespace as the claim states. -/
theorem chunk_small_not_trimmed :
    chunk_text 2000 200 (' ' :: 'a' :: []) ≠ [pyStrip (' ' :: 'a' :: [])] := by
  decide

/-- C3 (amended): for every text T with length at most chunk_size, chunking
returns exactly one chunk, and that chunk is T itself, unmodified (the
small-text path performs no trimming). -/
theorem chunk_small_single (cs ov : Nat) (text : List Char) (h : text.length ≤ cs) :
    chunk_text cs ov text = [text] := by
  unfold chunk_text
  rw [if_pos h]

/-- Witness for `chunk_small_single` at the concrete text "ab". -/
theorem chunk_small_single_witness :
    ('a' :: 'b' :: []).length ≤ 2000 ∧
      chunk_text 2000 200 ('a' :: 'b' :: []) = [('a' :: 'b' :: [])] :=
  ⟨by decide, chunk_small_single 2000 200 ('a' :: 'b' :: []) (by decide)⟩

/-- C5: every chunk produced by the chunking operation has length at most
chunk_size + 200 (in fact at most chunk_size: boundary snapping only moves
the chunk end backwards). -/
theorem chunk_length_bound (cs ov : Nat) (text : List Char) (c : List Char)
    (hc : c ∈ chunk_text cs ov text) : c.length ≤ cs + 200 := by
  unfold chunk_text at hc
  split at hc
  case isTrue h =>
    rcases List.mem_singleton.mp hc with rfl
    omega
  case isFalse h =>
    cases hL : chunkLoopFuel cs ov text text.length 0 with
    | none => rw [hL] at hc; simp at hc
    | some res =>
      rw [hL] at hc
      simp only [Option.getD_some] at hc
      have := chunkLoopFuel_length_le cs ov text text.length 0 res hL c hc
      omega

/-- Witness for `chunk_length_bound` at the concrete text "a". -/
theorem chunk_length_bound_witness :
    ('a' :: []) ∈ chunk_text 2000 200 ('a' :: []) ∧ ('a' :: []).length ≤ 2000 + 200 :=
  ⟨by decide, chunk_length_bound 2000 200 ('a' :: []) ('a' :: []) (by decide)⟩

/-- C9: the chunking loop terminates for every input text, every
chunk_size ≥ 1 and every chunk_overlap: the start position strictly
increases each iteration (it is advanced to at least start + 1), so
`text.length - start` units of fuel always suffice. -/
theorem chunk_loop_terminates (cs ov : Nat) (text : List Char) (fuel start : Nat)
    (_hcs : 1 ≤ cs) (hfuel : text.length - start ≤ fuel) :
    (chunkLoopFuel cs ov text fuel start).isSome = true := by
  induction fuel generalizing start with
  | zero =>
    unfold chunkLoopFuel
    split
    case isTrue hlt => omega
    case isFalse => simp
  | succ f ih =>
    unfold chunkLoopFuel
    split
    case isTrue hlt =>
      have hmax : start + 1 ≤ max (start + 1) (chunkEnd cs text start - ov) :=
        Nat.le_max_left _ _
      have hrec := ih (max (start + 1) (chunkEnd cs text start - ov)) (by omega)
      cases hr : chunkLoopFuel cs ov text f (max (start + 1) (chunkEnd cs text start - ov)) with
      | none => rw [hr] at hrec; simp at hrec
      | some rest => simp [hr]
    case isFalse => simp


/-- Witness for `chunk_loop_terminates` at the concrete text "abc" with
chunk_size 1, overlap 0 and fuel 5. -/
theorem chunk_loop_terminates_witness :
    1 ≤ 1 ∧ ('a' :: 'b' :: 'c' :: []).length - 0 ≤ 5 ∧
      (chunkLoopFuel 1 0 ('a' :: 'b' :: 'c' :: []) 5 0).isSome = true :=
  ⟨Nat.le_refl 1, by decide,
    chunk_loop_terminates 1 0 ('a' :: 'b' :: 'c' :: []) 5 0 (Nat.le_refl 1) (by decide)⟩

theorem contains_mem {s : String} {ks : List String} (h : ks.contains s = true) : s ∈ ks := by
  simpa using h

theorem regexFallback_category_mem (rt : List Char) :
    (regexFallback rt ROUTING_RULES).category ∈ ruleKeys ROUTING_RULES := by
  unfold regexFallback
  dsimp only
  split
  case isTrue hin =>
    cases hr : regexCategory rt with
    | none => simp only [hr]; decide
    | some cap =>
      simp only [hr]
      split
      case isTrue h2 => exact contains_mem h2
      case isFalse => decide
  case isFalse => decide

theorem pyCategoryCoerce_mem (catv : JVal) (c : String)
    (h : pyCategoryCoerce catv ROUTING_RULES = .ok c) : c ∈ ruleKeys ROUTING_RULES := by
  cases catv with
  | jstr s =>
    unfold pyCategoryCoerce at h
    injection h with h
    subst h
    split
    case isTrue h2 => exact contains_mem h2
    case isFalse => decide
  | jnum q => unfold pyCategoryCoerce at h; injection h with h; subst h; decide
  | jbool b => unfold pyCategoryCoerce at h; injection h with h; subst h; decide
  | jnull => unfold pyCategoryCoerce at h; injection h with h; subst h; decide
  | jarr xs => unfold pyCategoryCoerce at h; exact absurd h (by simp)
  | jobj fields => unfold pyCategoryCoerce at h; exact absurd h (by simp)

theorem parseSuccess_category_mem (v : JVal) (r : CResult)
    (h : parseSuccess v ROUTING_RULES = .ok r) : r.category ∈ ruleKeys ROUTING_RULES := by
  cases v with
  | jobj fields =>
    simp only [parseSuccess] at h
    split at h
    · split at h
      · exact absurd h (by simp)
      · rename_i category heq
        injection h with h
        subst h
        exact pyCategoryCoerce_mem _ category heq
    · exact absurd h (by simp)
  | jarr xs =>
    simp only [parseSuccess] at h
    split at h <;> exact absurd h (by simp)
  | jstr s =>
    simp only [parseSuccess] at h
    split at h <;> exact absurd h (by simp)
  | jnum q => simp only [parseSuccess] at h; exact absurd h (by simp)
  | jbool b => simp only [parseSuccess] at h; exact absurd h (by simp)
  | jnull => simp only [parseSuccess] at h; exact absurd h (by simp)

theorem client_category_mem (env : Env) (text : List Char) :
    (client_classify_document env text ROUTING_RULES).category ∈ ruleKeys ROUTING_RULES := by
  unfold client_classify_document
  cases ha : env.classifyAPI text with
  | error e => simp only [ha]; decide
  | ok content =>
    simp only [ha, client_parse]
    cases hl : env.loads (stripFences (pyStrip (pyStrip content))) with
    | none =>
      simp only [hl]
      exact regexFallback_category_mem (pyStrip content)
    | some v =>
      simp only [hl]
      cases hp : parseSuccess v ROUTING_RULES with
      | error e => simp only [hp]; decide
      | ok r2 => simp only [hp]; exact parseSuccess_category_mem v r2 hp

theorem classify_large_category_mem (env : Env) (text : List Char) :
    (classify_large_document env text).1.category ∈ ruleKeys ROUTING_RULES := by
  unfold classify_large_document
  dsimp only
  split
  · cases hci : env.clientInit with
    | error e => simp only [hci]; decide
    | ok u => simp only [hci]; exact client_category_mem env _
  · cases hci : env.clientInit with
    | error e => simp only [hci]; decide
    | ok u =>
      simp only [hci]
      split
      · exact client_category_mem env _
      · exact client_category_mem env _

theorem lookup_isSome_of_mem (s : String) (h : s ∈ ruleKeys ROUTING_RULES) :
    (ROUTING_RULES.lookup s).isSome = true := by
  simp only [ruleKeys, ROUTING_RULES, List.map_cons, List.map_nil, List.mem_cons,
    List.not_mem_nil, or_false] at h
  rcases h with rfl | rfl | rfl | rfl | rfl <;> decide

theorem classification_step_category_mem (env : Env) (text : List Char) (r : CResult)
    (calls : List Call) (h : classification_step env text = .ok (r, calls)) :
    r.category ∈ ruleKeys ROUTING_RULES := by
  unfold classification_step at h
  split at h
  · injection h with h
    have hmem := classify_large_category_mem env text
    rw [h] at hmem
    exact hmem
  · cases hci : env.clientInit with
    | error e => rw [hci] at h; exact absurd h (by simp)
    | ok u =>
      rw [hci] at h
      injection h with h
      have hfst := congrArg Prod.fst h
      simp only at hfst
      rw [← hfst]
      exact client_category_mem env text

/-- C1: for every raw model response (any API outcome and any parse result,
including malformed JSON, missing fields and out-of-set categories) the
category of the classification result is a member of the configured category
set, and an out-of-set category string is coerced to "Other". -/
theorem classify_category_in_configured_set :
    (∀ (env : Env) (text : List Char),
        (client_classify_document env text ROUTING_RULES).category ∈ ruleKeys ROUTING_RULES) ∧
    (∀ (fields : List (String × JVal)) (s : String) (confv sumv : JVal),
        fields.lookup "category" = some (JVal.jstr s) →
        fields.lookup "confidence" = some confv →
        fields.lookup "summary" = some sumv →
        (ruleKeys ROUTING_RULES).contains s = false →
        ∃ r, parseSuccess (JVal.jobj fields) ROUTING_RULES = .ok r ∧ r.category = "Other") := by
  constructor
  · exact client_category_mem
  · intro fields s confv sumv h1 h2 h3 h4
    refine ⟨{ category := "Other", confidence := pyConfidenceCoerce confv, summary := sumv },
      ?_, rfl⟩
    simp only [parseSuccess, h1, h2, h3, pyCategoryCoerce, h4, if_false, Bool.false_eq_true]

/-- Witness for `classify_category_in_configured_set` at the concrete parsed
response `{"category": "Banana", "confidence": 1, "summary": "s"}`. -/
theorem classify_category_in_configured_set_witness :
    ∃ r, parseSuccess (JVal.jobj [("category", JVal.jstr "Banana"),
        ("confidence", JVal.jnum 1), ("summary", JVal.jstr "s")]) ROUTING_RULES = .ok r ∧
      r.category = "Other" :=
  classify_category_in_configured_set.2
    [("category", JVal.jstr "Banana"), ("confidence", JVal.jnum 1), ("summary", JVal.jstr "s")]
    "Banana" (JVal.jnum 1) (JVal.jstr "s") rfl rfl rfl (by decide)

theorem classifier_result_ok_lookup (env : Env) (filename : String) :
    ∃ (r : FinalResult) (calls : List Call),
      classifier_classify_document env filename = (.ok r, calls) ∧
      ROUTING_RULES.lookup r.label = some r.routing := by
  unfold classifier_classify_document classifier_body
  cases he : env.extractResult with
  | error e =>
    exact ⟨{ filename := filename, label := "Other", confidence := 0,
             routing := "Back Office (Review)",
             summary := .jstr ("Classification failed: " ++ e) }, [], rfl, rfl⟩
  | ok text =>
    by_cases hempty : (pyStrip text).isEmpty = true
    · refine ⟨{ filename := filename, label := "Other", confidence := 0,
                routing := "Back Office (Review)",
                summary := .jstr "No readable text found in document" }, [], ?_, rfl⟩
      simp only [hempty, if_true]
      rfl
    · cases hcs : classification_step env text with
      | error e =>
        refine ⟨{ filename := filename, label := "Other", confidence := 0,
                  routing := "Back Office (Review)",
                  summary := .jstr ("Classification failed: " ++ e) }, [], ?_, rfl⟩
        simp only [hempty, if_false, hcs, Bool.false_eq_true]
        rfl
      | ok pr =>
        obtain ⟨cres, calls⟩ := pr
        have hiso := lookup_isSome_of_mem cres.category
          (classification_step_category_mem env text cres calls hcs)
        obtain ⟨routing, hr⟩ := Option.isSome_iff_exists.mp hiso
        refine ⟨{ filename := filename, label := cres.category,
                  confidence := cres.confidence, routing := routing,
                  summary := cres.summary }, calls, ?_, hr⟩
        simp only [hempty, if_false, hcs, hr, Bool.false_eq_true]

/-- C10: the routing-table lookup of a produced category never fails: every
classification result reaching the result-building step has a category that
is a key of the static routing table, and the final output of the pipeline
always carries the routing string defined for its label. -/
theorem routing_lookup_total :
    (∀ (env : Env) (text : List Char) (r : CResult) (calls : List Call),
        classification_step env text = .ok (r, calls) →
        (ROUTING_RULES.lookup r.category).isSome = true) ∧
    (∀ (env : Env) (filename : String),
        ∃ (r : FinalResult) (calls : List Call),
          classifier_classify_document env filename = (.ok r, calls) ∧
          ROUTING_RULES.lookup r.label = some r.routing) := by
  constructor
  · intro env text r calls h
    exact lookup_isSome_of_mem r.category (classification_step_category_mem env text r calls h)
  · exact classifier_result_ok_lookup

/-- Witness for `routing_lookup_total` (first part) at a concrete small
document and environment. -/
theorem routing_lookup_total_witness :
    (ROUTING_RULES.lookup
      (client_classify_document envBase ('h' :: 'i' :: []) ROUTING_RULES).category).isSome
      = true :=
  routing_lookup_total.1 envBase ('h' :: 'i' :: [])
    (client_classify_document envBase ('h' :: 'i' :: []) ROUTING_RULES)
    [Call.classifyCall ('h' :: 'i' :: [])] rfl

/-- C4: when the extracted text is empty or whitespace-only, the pipeline
returns label "Other" with confidence 0.0 and makes no call to the external
model: the list of model calls performed is empty (no classification and no
summarization call). -/
theorem empty_text_default_no_model_call (env : Env) (filename : String) (text : List Char)
    (hex : env.extractResult = .ok text) (hempty : (pyStrip text).isEmpty = true) :
    classifier_classify_document env filename =
      (.ok { filename := filename, label := "Other", confidence := 0,
             routing := "Back Office (Review)",
             summary := .jstr "No readable text found in document" }, []) := by
  unfold classifier_classify_document classifier_body
  simp only [hex, hempty, if_true]
  rfl

/-- Witness for `empty_text_default_no_model_call` on a whitespace-only
document. -/
theorem empty_text_default_no_model_call_witness :
    classifier_classify_document envBlank "blank.txt" =
      (.ok { filename := "blank.txt", label := "Other", confidence := 0,
             routing := "Back Office (Review)",
             summary := .jstr "No readable text found in document" }, []) :=
  empty_text_default_no_model_call envBlank "blank.txt" (' ' :: ' ' :: '\t' :: ' ' :: [])
    rfl rfl

/-- C2 counterexample: a request whose text extraction raises is not
propagated to the caller as a failed request: the classifier catches the
exception too and returns an ordinary structured "Other" result. -/
theorem extraction_error_not_propagated :
    classifier_classify_document envExtractFail "img.png" =
      (.ok { filename := "img.png", label := "Other", confidence := 0,
             routing := "Back Office (Review)",
             summary := .jstr ("Classification failed: Failed to process uploaded file: Unsupported file type: image/png") },
       []) := by
  rfl

/-- C2 (amended): every failure in the pipeline, text extraction included,
is caught at the classifier boundary and converted into a structured default
result; the caller always receives a result, never a raised exception, and
when extraction fails that result is category "Other", confidence 0.0, with
a diagnostic summary. -/
theorem classifier_catches_all_failures :
    (∀ (env : Env) (filename : String),
        ∃ (r : FinalResult) (calls : List Call),
          classifier_classify_document env filename = (.ok r, calls)) ∧
    (∀ (env : Env) (filename : String) (e : String),
        env.extractResult = .error e →
        classifier_classify_document env filename =
          (.ok { filename := filename, label := "Other", confidence := 0,
                 routing := "Back Office (Review)",
                 summary := .jstr ("Classification failed: " ++ e) }, [])) := by
  constructor
  · intro env filename
    obtain ⟨r, calls, hr, _⟩ := classifier_result_ok_lookup env filename
    exact ⟨r, calls, hr⟩
  · intro env filename e hex
    unfold classifier_classify_document classifier_body
    simp only [hex]
    rfl

/-- Witness for `classifier_catches_all_failures` at a concrete environment
whose extraction raises "read error". -/
theorem classifier_catches_all_failures_witness :
    classifier_classify_document envExtractFail2 "doc.txt" =
      (.ok { filename := "doc.txt", label := "Other", confidence := 0,
             routing := "Back Office (Review)",
             summary := .jstr ("Classification failed: " ++ "read error") }, []) :=
  classifier_catches_all_failures.2 envExtractFail2 "doc.txt" "read error" rfl

/-- C7: the large-document strategy.  When the text chunks into more than 10
chunks it selects the first 3 chunks, the 2 chunks around the midpoint, and
the last 3 chunks, removes duplicate chunk contents preserving
first-occurrence order, obtains a summary of those representative chunks and
classifies the summary; with at most 10 chunks it classifies the
concatenation of the first 5 chunks directly, unless that concatenation
exceeds 8000 characters, in which case it summarizes those chunks first and
classifies the summary. -/
theorem classify_large_strategy (env : Env) (text : List Char)
    (hci : env.clientInit = .ok ()) :
    classify_large_document env text =
      (let chunks := chunk_text 2000 200 text
       if 10 < chunks.length then
         let reps := uniqueChunks (chunks.take 3
           ++ (chunks.drop (chunks.length / 2 - 1)).take 2
           ++ chunks.drop (chunks.length - 3))
         let s := client_summarize env reps
         (client_classify_document env s ROUTING_RULES,
          [Call.summarizeCall reps, Call.classifyCall s])
       else
         let analysis := chunks.take 5
         let combined := List.intercalate ('\n' :: '\n' :: []) analysis
         if 8000 < combined.length then
           let s := client_summarize env analysis
           (client_classify_document env s ROUTING_RULES,
            [Call.summarizeCall analysis, Call.classifyCall s])
         else
           (client_classify_document env combined ROUTING_RULES,
            [Call.classifyCall combined])) := by
  unfold classify_large_document
  by_cases hn : 10 < (chunk_text 2000 200 text).length
  · simp only [hci, if_pos hn]
    have h1 : max 3 ((chunk_text 2000 200 text).length / 2 - 1)
        = (chunk_text 2000 200 text).length / 2 - 1 := by omega
    have h2 : min ((chunk_text 2000 200 text).length - 3)
        ((chunk_text 2000 200 text).length / 2 + 1)
        = (chunk_text 2000 200 text).length / 2 + 1 := by omega
    have h3 : (chunk_text 2000 200 text).length / 2 + 1 -
        ((chunk_text 2000 200 text).length / 2 - 1) = 2 := by omega
    rw [h1, h2, h3]
  · simp only [hci, if_neg hn]

/-- Witness for `classify_large_strategy` at the concrete text "hi" (one
chunk, short concatenation: a direct classification call). -/
theorem classify_large_strategy_witness :
    classify_large_document envBase ('h' :: 'i' :: []) =
      (client_classify_document envBase ('h' :: 'i' :: []) ROUTING_RULES,
       [Call.classifyCall ('h' :: 'i' :: [])]) :=
  (classify_large_strategy envBase ('h' :: 'i' :: []) rfl).trans (by rfl)

theorem matchCatAt_matchSub (l : List Char) (i : Nat) (cap : List Char)
    (h : matchCatAt l i = some cap) : matchSub l catColon i = true := by
  unfold matchCatAt at h
  split at h
  case isTrue ht => exact ht
  case isFalse => exact absurd h (by simp)

theorem matchSub_catColon_catLit (l : List Char) (i : Nat)
    (h : matchSub l catColon i = true) : matchSub l catLit i = true := by
  unfold matchSub at h ⊢
  have heq : (l.drop i).take catColon.length = catColon := by simpa using h
  have h2 := congrArg (List.take 10) heq
  rw [List.take_take] at h2
  have h3 : min 10 catColon.length = catLit.length := by decide
  rw [h3] at h2
  have h4 : catColon.take 10 = catLit := by decide
  rw [h4] at h2
  simpa using h2

theorem regexCategory_containsSub (l : List Char) (cap : List Char)
    (h : regexCategory l = some cap) : containsSub l catLit = true := by
  unfold regexCategory at h
  have hc : cap ∈ (List.range (l.length + 1)).filterMap (fun i => matchCatAt l i) :=
    List.mem_of_mem_head? (Option.mem_def.mpr h)
  rcases List.mem_filterMap.mp hc with ⟨i, hi, hm⟩
  have h1 := matchCatAt_matchSub l i cap hm
  have h2 := matchSub_catColon_catLit l i h1
  unfold containsSub
  rw [List.any_eq_true]
  exact ⟨i, hi, h2⟩

theorem regexFallback_category_eq (rt : List Char) (cap : List Char)
    (hcap : regexCategory rt = some cap)
    (hmem : (ruleKeys ROUTING_RULES).contains (String.mk cap) = true) :
    (regexFallback rt ROUTING_RULES).category = String.mk cap := by
  unfold regexFallback
  dsimp only
  simp only [regexCategory_containsSub rt cap hcap, hcap, hmem, if_true]

theorem regexFallback_category_none (rt : List Char) (hnone : regexCategory rt = none) :
    (regexFallback rt ROUTING_RULES).category = "Other" := by
  unfold regexFallback
  dsimp only
  by_cases hsub : containsSub rt catLit = true
  · simp only [hsub, hnone, if_true]
  · simp only [Bool.not_eq_true] at hsub
    simp only [hsub, Bool.false_eq_true, if_false]

/-- C8: when the stripped, fence-stripped response text fails to parse as
JSON, the classify operation falls back to regex-based extraction: the
result has confidence 0.5 and the fixed manual-review summary, its category
is always in the configured set, a successfully extracted in-set category
value becomes the category, and with no regex match the category is
"Other". -/
theorem malformed_response_regex_fallback (env : Env) (text content : List Char)
    (hapi : env.classifyAPI text = .ok content)
    (hloads : env.loads (stripFences (pyStrip (pyStrip content))) = none) :
    (client_classify_document env text ROUTING_RULES).confidence = 1 / 2 ∧
    (client_classify_document env text ROUTING_RULES).summary =
      .jstr "Classification failed - manual review required" ∧
    (client_classify_document env text ROUTING_RULES).category ∈ ruleKeys ROUTING_RULES ∧
    (∀ cap : List Char, regexCategory (pyStrip content) = some cap →
        (ruleKeys ROUTING_RULES).contains (String.mk cap) = true →
        (client_classify_document env text ROUTING_RULES).category = String.mk cap) ∧
    (regexCategory (pyStrip content) = none →
        (client_classify_document env text ROUTING_RULES).category = "Other") := by
  have hred : client_classify_document env text ROUTING_RULES
      = regexFallback (pyStrip content) ROUTING_RULES := by
    unfold client_classify_document
    simp only [hapi, client_parse, hloads]
  rw [hred]
  exact ⟨rfl, rfl, regexFallback_category_mem _,
    fun cap hcap hmem => regexFallback_category_eq _ cap hcap hmem,
    fun hnone => regexFallback_category_none _ hnone⟩

/-- Witness for `malformed_response_regex_fallback` at a concrete malformed
response containing `"category": "Invoice"`. -/
theorem malformed_response_regex_fallback_witness :
    (client_classify_document envMalformed ('t' :: []) ROUTING_RULES).category = "Invoice" ∧
    (client_classify_document envMalformed ('t' :: []) ROUTING_RULES).confidence = 1 / 2 :=
  have h := malformed_response_regex_fallback envMalformed ('t' :: [])
    ("note \"category\": \"Invoice\" end".data) rfl rfl
  ⟨(h.2.2.2.1 ("Invoice".data) (by decide) (by decide)).trans (by rfl), h.1⟩
